import Mathlib

/-!
Shallow embedding of the orchestration core of the whisper call-processing
repository: the Recording catalog (app/db/models.py), the Dispatcher task
`enqueue_pending_recordings` and the Worker task `process_recording`
(app/worker/tasks.py), the ingestion endpoint `ingest_folder` and the
`reprocess_recording` endpoint (app/api/routes.py), and the
`FolderWatcher` (app/watcher/folder_watcher.py).  Timestamps are integer
seconds; database tables are lists of rows; the execution runtime is
abstracted by the set of recording ids it reports as active or reserved.
-/

namespace Whisper

/-- `RecordingStatus` from app/db/models.py. -/
inductive RecordingStatus
  | discovered
  | queued
  | processing
  | done
  | failed
  | skipped
deriving DecidableEq, Repr

/-- The orchestration-relevant columns of the `Recording` row
(app/db/models.py lines 42-107) together with `processing_step`,
`processing_step_started_at` (added by migration 005) and
`processing_segments_count`, which the worker and dispatcher code in
app/worker/tasks.py read and write.  `retry_count` is stored as a `Nat`:
the code guards every read with `or 0`, which collapses a missing value
to `0`. -/
structure Recording where
  id : Nat
  file_path : String
  file_name : String
  file_hash : String
  file_size : Nat
  status : RecordingStatus
  error_message : Option String := none
  retry_count : Nat := 0
  processing_step : Option String := none
  processing_step_started_at : Option Int := none
  processing_segments_count : Option Nat := none
  updated_at : Int := 0
  processed_at : Option Int := none
deriving DecidableEq, Repr

/-- Python `x or d` on an optional string: both `None` and `""` are falsy. -/
def pyOrStr : Option String → String → String
  | none, d => d
  | some s, d => if s = "" then d else s

/-- Python `x or 0` on an optional count (`None or 0 = 0`, `n or 0 = n`). -/
def orZeroNat : Option Nat → Nat
  | none => 0
  | some n => n

/-- `s` has `sub` somewhere inside it (the spec phrase "contains"). -/
def strContains (s sub : String) : Prop :=
  ∃ p q : String, s = p ++ sub ++ q

/-- `MAX_CELERY_PENDING` in `enqueue_pending_recordings`
(app/worker/tasks.py line 639): the admission ceiling. -/
def MAX_CELERY_PENDING : Nat := 5

/-- The diagnostic written when stuck recovery gives up on a record
(app/worker/tasks.py lines 625-627). -/
def stuckErrorMessage (step : String) (segments : Nat) (ageMin : Int) : String :=
  "Stuck in step " ++ step ++ " (" ++ toString segments ++
    " segments); last update " ++ toString ageMin ++ "m ago (cleanup)"

/-- One record of the stuck-recovery sweep of `enqueue_pending_recordings`
(app/worker/tasks.py lines 592-633).  `known` is the set of recording ids
the runtime reports active or reserved; `cutoff` is `now0 − stuck
threshold` computed at entry; `now` is the clock read before the loop.
A `PROCESSING` record that is known to the runtime or whose `updated_at`
is at or after the cutoff is left untouched; otherwise `retry_count` is
incremented and the record goes to `FAILED` (diagnostic message) when the
incremented count reaches `maxRetries`, else to `QUEUED` with
`error_message` cleared. -/
def stuckSweepOne (known : Finset Nat) (maxRetries : Nat) (cutoff now : Int)
    (rec : Recording) : Recording :=
  if rec.status ≠ RecordingStatus.processing then rec
  else if rec.id ∈ known then rec
  else if cutoff ≤ rec.updated_at then rec
  else
    let step := pyOrStr rec.processing_step "?"
    let segments := orZeroNat rec.processing_segments_count
    let retry := rec.retry_count + 1
    if maxRetries ≤ retry then
      { rec with
        retry_count := retry
        status := RecordingStatus.failed
        error_message :=
          some (stuckErrorMessage step segments (Int.ediv (now - rec.updated_at) 60)) }
    else
      { rec with
        retry_count := retry
        status := RecordingStatus.queued
        error_message := none }

/-- The stuck test of the sweep as a Boolean (status is `PROCESSING`, the
runtime does not know the id, and the heartbeat is stale). -/
def isStuckB (known : Finset Nat) (cutoff : Int) (rec : Recording) : Bool :=
  decide (rec.status = RecordingStatus.processing) &&
    !(decide (rec.id ∈ known)) && decide (rec.updated_at < cutoff)

/-- Insert a record into a list sorted by ascending `updated_at`. -/
def insertByUpdated (r : Recording) : List Recording → List Recording
  | [] => [r]
  | x :: xs =>
    if r.updated_at ≤ x.updated_at then r :: x :: xs
    else x :: insertByUpdated r xs

/-- Sort records by ascending `updated_at` (the `ORDER BY updated_at ASC`
of the dispatch query, app/worker/tasks.py line 649). -/
def sortByUpdated : List Recording → List Recording
  | [] => []
  | x :: xs => insertByUpdated x (sortByUpdated xs)

/-- The observable outcome of one `enqueue_pending_recordings` cycle: the
returned counts, the resulting table, and the ids handed to the runtime
via `process_recording.delay`. -/
structure EnqueueResult where
  failed : Nat
  reset_to_queued : Nat
  enqueued : Nat
  db : List Recording
  dispatched : List Nat
deriving DecidableEq, Repr

/-- `enqueue_pending_recordings` (app/worker/tasks.py lines 552-669):
stuck recovery over every `PROCESSING` row, then bounded dispatch.  Room
is `max(0, MAX_CELERY_PENDING − |known|)` (Nat subtraction realises the
`max 0`); when the room is zero nothing is dispatched.  Otherwise up to
`room` `QUEUED` rows, oldest `updated_at` first, are set `PROCESSING`
(committed) and then submitted. -/
def enqueue_pending_recordings (known : Finset Nat) (maxRetries : Nat)
    (cutoff now : Int) (db : List Recording) : EnqueueResult :=
  let db1 := db.map (stuckSweepOne known maxRetries cutoff now)
  let failedCount :=
    (db.filter (fun r =>
      isStuckB known cutoff r && decide (maxRetries ≤ r.retry_count + 1))).length
  let queuedCount :=
    (db.filter (fun r =>
      isStuckB known cutoff r && decide (r.retry_count + 1 < maxRetries))).length
  let room := MAX_CELERY_PENDING - known.card
  if room = 0 then
    { failed := failedCount, reset_to_queued := queuedCount, enqueued := 0
      db := db1, dispatched := [] }
  else
    let toEnqueue :=
      (sortByUpdated
        (db1.filter (fun r => decide (r.status = RecordingStatus.queued)))).take room
    let ids := toEnqueue.map (fun r => r.id)
    let db2 := db1.map (fun r =>
      if ids.contains r.id then { r with status := RecordingStatus.processing } else r)
    { failed := failedCount, reset_to_queued := queuedCount
      enqueued := toEnqueue.length, db := db2, dispatched := ids }

/-- Outcome of the entry guards of `process_recording`. -/
inductive EntryOutcome
  | skippedDone
  | refusedFailed
  | proceed
deriving DecidableEq, Repr

/-- The entry guards of `process_recording` (app/worker/tasks.py lines
331-347): a `DONE` record is skipped unchanged (duplicate dispatch); a
record whose stored `retry_count` already reached `maxRetries` is marked
`FAILED` (keeping a truthy existing `error_message`, else "Max retries
exceeded") and refused; otherwise the record is set `PROCESSING` and its
`retry_count` is overwritten with the runtime task retry counter
`self.request.retries`. -/
def worker_entry (maxRetries taskRetries : Nat) (rec : Recording) :
    Recording × EntryOutcome :=
  if rec.status = RecordingStatus.done then (rec, EntryOutcome.skippedDone)
  else if maxRetries ≤ rec.retry_count then
    ({ rec with
        status := RecordingStatus.failed
        error_message := some (pyOrStr rec.error_message "Max retries exceeded") },
      EntryOutcome.refusedFailed)
  else
    ({ rec with
        status := RecordingStatus.processing
        retry_count := taskRetries },
      EntryOutcome.proceed)

/-- Modelled from the spec: `Recording.format_error_message` is called at
app/worker/tasks.py lines 461, 467 and 507 but its definition is not under
src/ (the `Recording` model in src/app/db/models.py predates the
processing-step columns; migration 004 is also absent).  Per the spec it
annotates a failure text with the current `processing_step` and the
transient `processing_segments_count`; the comment at tasks.py line 488
shows the shape "Step X (N segments): ...". -/
def format_error_message (rec : Recording) (msg : String) : String :=
  "Step " ++ pyOrStr rec.processing_step "?" ++ " (" ++
    toString (orZeroNat rec.processing_segments_count) ++ " segments): " ++ msg

/-- The two fatal error classes the worker handles explicitly
(app/worker/tasks.py lines 447 and 493): a runtime-enforced timeout
(`SoftTimeLimitExceeded` / `TimeLimitExceeded`) or a generic exception. -/
inductive FatalError
  | timeout (txt : String)
  | generic (txt : String)
deriving DecidableEq, Repr

/-- The failure text carried by a fatal error. -/
def FatalError.txt : FatalError → String
  | FatalError.timeout t => t
  | FatalError.generic t => t

/-- The timeout and generic-exception handlers of `process_recording`
(app/worker/tasks.py lines 447-479 and 493-523) as the update they apply
to the row when it exists: store the task retry counter, persist an
annotated `error_message`, then `FAILED` when the counter reached
`maxRetries`, else `QUEUED` for retry.  The timeout terminal branch
overwrites the message once more with the retries-exhausted variant. -/
def worker_handle_fatal (maxRetries taskRetries : Nat) (err : FatalError)
    (rec : Recording) : Recording :=
  match err with
  | FatalError.timeout txt =>
    let rec1 := { rec with
      retry_count := taskRetries
      error_message := some (format_error_message rec ("Timeout exceeded: " ++ txt)) }
    if maxRetries ≤ taskRetries then
      { rec1 with
        status := RecordingStatus.failed
        error_message := some (format_error_message rec1
          ("Timeout exceeded after " ++ toString taskRetries ++ " retries: " ++ txt)) }
    else
      { rec1 with status := RecordingStatus.queued }
  | FatalError.generic txt =>
    let rec1 := { rec with
      retry_count := taskRetries
      error_message := some (format_error_message rec txt) }
    if maxRetries ≤ taskRetries then
      { rec1 with status := RecordingStatus.failed }
    else
      { rec1 with status := RecordingStatus.queued }

/-- The `finally` cleanup of `process_recording` (app/worker/tasks.py
lines 525-545), run on every exit (success, fatal error, timeout): clear
`processing_segments_count`, then `processing_step` and
`processing_step_started_at`, each write guarded by a non-null test. -/
def worker_cleanup (rec : Recording) : Recording :=
  let rec1 :=
    if rec.processing_segments_count ≠ none then
      { rec with processing_segments_count := none }
    else rec
  if rec1.processing_step ≠ none ∨ rec1.processing_step_started_at ≠ none then
    { rec1 with processing_step := none, processing_step_started_at := none }
  else rec1

/-- The success tail of `process_recording` (app/worker/tasks.py lines
426-435): mark `DONE`, stamp `processed_at`, clear the error and the
transient step fields. -/
def worker_mark_done (now : Int) (rec : Recording) : Recording :=
  { rec with
    status := RecordingStatus.done
    processed_at := some now
    error_message := none
    processing_step := none
    processing_step_started_at := none
    processing_segments_count := none }

/-- The reset applied to an existing row when ingestion requeues it and
by the reprocess endpoint (app/api/routes.py lines 287-289 and 450-452):
status to `QUEUED`, `error_message` and `retry_count` cleared. -/
def requeueReset (r : Recording) : Recording :=
  { r with
    status := RecordingStatus.queued
    error_message := none
    retry_count := 0 }

/-- `reprocess_recording` (app/api/routes.py lines 431-462): look the row
up by id, 404 (`none`) when absent; otherwise reset it to `QUEUED` and
clear `error_message` and `retry_count`, whatever its current status. -/
def reprocess_recording (db : List Recording) (rid : Nat) :
    Option (List Recording) :=
  match db.find? (fun r => r.id == rid) with
  | none => none
  | some _ =>
    some (db.map (fun r =>
      if r.id == rid then requeueReset r else r))

/-- A candidate file as prepared by the first pass of `ingest_folder`
(app/api/routes.py lines 221-235): absolute path, name, size, content
hash. -/
structure FileData where
  path : String
  name : String
  size : Nat
  hash : String
deriving DecidableEq, Repr

/-- The counters `ingest_folder` returns. -/
structure IngestCounts where
  discovered : Nat
  queued : Nat
  skipped : Nat
deriving DecidableEq, Repr

/-- The fresh `QUEUED` row created for an unseen candidate (the
`Recording(...)` constructor calls in app/api/routes.py lines 296-302 and
app/watcher/folder_watcher.py lines 327-333). -/
def createdRow (n : Nat) (f : FileData) : Recording :=
  { id := n, file_path := f.path, file_name := f.name
    file_hash := f.hash, file_size := f.size
    status := RecordingStatus.queued }

/-- The per-candidate loop of `ingest_folder` step 3 (app/api/routes.py
lines 271-308).  `existing` plays the role of the bulk-fetched
`existing_map` (the pre-existing rows, looked up by `file_hash`); `news`
accumulates rows created in this batch; `seen` is `processed_hashes`.  A
hash already handled in this batch is skipped; a hash matching an
existing row is requeued (status reset to `QUEUED`, `error_message` and
`retry_count` cleared) when `force` is set or the row is `FAILED`, else
skipped; an unseen hash creates a fresh `QUEUED` row, counted as
discovered and queued. -/
def ingestLoop (force : Bool) :
    List FileData → List Recording → List Recording → IngestCounts →
      List String → Nat → List Recording × List Recording × IngestCounts
  | [], existing, news, counts, _, _ => (existing, news, counts)
  | f :: fs, existing, news, counts, seen, nextId =>
    if f.hash ∈ seen then
      ingestLoop force fs existing news
        { counts with skipped := counts.skipped + 1 } seen nextId
    else
      match existing.find? (fun r => r.file_hash == f.hash) with
      | some ex =>
        if force || ex.status == RecordingStatus.failed then
          let existing2 := existing.map (fun r =>
            if r.file_hash == f.hash then requeueReset r else r)
          ingestLoop force fs existing2 news
            { counts with queued := counts.queued + 1 } (f.hash :: seen) nextId
        else
          ingestLoop force fs existing news
            { counts with skipped := counts.skipped + 1 } (f.hash :: seen) nextId
      | none =>
        ingestLoop force fs existing (news ++ [createdRow nextId f])
          { counts with
            discovered := counts.discovered + 1
            queued := counts.queued + 1 } (f.hash :: seen) (nextId + 1)

/-- `ingest_folder` steps 3-4 over a prepared candidate list: the final
table (updated pre-existing rows followed by the batch creations) and the
returned counts. -/
def ingest_folder (force : Bool) (files : List FileData) (db : List Recording)
    (nextId : Nat) : List Recording × IngestCounts :=
  let res := ingestLoop force files db [] ⟨0, 0, 0⟩ [] nextId
  (res.1 ++ res.2.1, res.2.2)

/-- The filter-and-add loop of `FolderWatcher.process_batch`
(app/watcher/folder_watcher.py lines 317-348): a candidate whose hash is
already known is skipped; then a candidate whose NAME is already known is
skipped; otherwise a `QUEUED` row is created and both sets grow
(intra-batch deduplication). -/
def watcherLoop :
    List FileData → List String → List String → List Recording → Nat →
      List Recording × Nat
  | [], _, _, acc, nextId => (acc, nextId)
  | f :: fs, hashes, names, acc, nextId =>
    if f.hash ∈ hashes then watcherLoop fs hashes names acc nextId
    else if f.name ∈ names then watcherLoop fs hashes names acc nextId
    else
      watcherLoop fs (f.hash :: hashes) (f.name :: names)
        (acc ++ [createdRow nextId f]) (nextId + 1)

/-- `FolderWatcher.process_batch` (app/watcher/folder_watcher.py lines
266-357): the existing-hash and existing-name sets are bulk-fetched from
the table, the loop adds the new rows, and the return value is the number
of rows queued. -/
def watcher_process_batch (db : List Recording) (files : List FileData)
    (nextId : Nat) : List Recording × Nat :=
  let res := watcherLoop files (db.map (fun r => r.file_hash))
    (db.map (fun r => r.file_name)) [] nextId
  (res.1, res.1.length)

/-- Look a path up in the watcher size cache (`self._last_sizes`). -/
def lookupSize : List (String × Nat) → String → Option Nat
  | [], _ => none
  | (k, v) :: rest, key => if k = key then some v else lookupSize rest key

/-- Store a size in the watcher size cache, replacing any earlier entry. -/
def setSize : List (String × Nat) → String → Nat → List (String × Nat)
  | [], key, v => [(key, v)]
  | (k, w) :: rest, key, v =>
    if k = key then (key, v) :: rest else (k, w) :: setSize rest key v

/-- `FolderWatcher.is_file_ready` (app/watcher/folder_watcher.py lines
66-106).  `statResult` is `some (mtime, size)` or `none` when `stat`
fails.  A failed stat or a too-recent mtime returns not-ready without
touching the cache; otherwise the cache is updated to the current size
and the file is ready only when a previous observation exists and equals
the current size. -/
def is_file_ready (stable_seconds now : Int) (cache : List (String × Nat))
    (path : String) (statResult : Option (Int × Nat)) :
    Bool × List (String × Nat) :=
  match statResult with
  | none => (false, cache)
  | some (mtime, size) =>
    if now - mtime < stable_seconds then (false, cache)
    else
      let last := lookupSize cache path
      let cache2 := setSize cache path size
      match last with
      | none => (false, cache2)
      | some l => (decide (l = size), cache2)

/-! ### Sample rows used by witnesses and counterexamples -/

/-- A stale `PROCESSING` row mid-transcription, one retry short of the cap. -/
def sampleStuck : Recording :=
  { id := 11, file_path := "/data/calls/stuck.m4a", file_name := "stuck.m4a"
    file_hash := "hstuck", file_size := 1000
    status := RecordingStatus.processing
    processing_step := some "transcribe"
    processing_segments_count := some 30
    retry_count := 2, updated_at := 0 }

/-- A `PROCESSING` row with a fresh heartbeat (`updated_at` after cutoff). -/
def sampleFresh : Recording :=
  { id := 12, file_path := "/data/calls/fresh.m4a", file_name := "fresh.m4a"
    file_hash := "hfresh", file_size := 1000
    status := RecordingStatus.processing
    processing_step := some "transcribe"
    retry_count := 0, updated_at := 200 }

/-- A `PROCESSING` row on its first attempt, mid-transcription. -/
def sampleProc : Recording :=
  { id := 13, file_path := "/data/calls/p.m4a", file_name := "p.m4a"
    file_hash := "hp", file_size := 500
    status := RecordingStatus.processing
    processing_step := some "transcribe"
    processing_segments_count := some 12
    retry_count := 0, updated_at := 0 }

/-- A long-queued row waiting for dispatch. -/
def sampleQueuedOld : Recording :=
  { id := 14, file_path := "/data/calls/q.m4a", file_name := "q.m4a"
    file_hash := "hq", file_size := 300
    status := RecordingStatus.queued, retry_count := 0, updated_at := 5 }

/-- A `QUEUED` row whose stored `retry_count` has already reached the
configured maximum of 3: the dispatch query does not filter it out. -/
def exhaustedQueued : Recording :=
  { id := 21, file_path := "/data/calls/x.m4a", file_name := "x.m4a"
    file_hash := "hx", file_size := 5
    status := RecordingStatus.queued, retry_count := 3, updated_at := 0 }

/-- A `QUEUED` row carrying two stuck-recovery increments. -/
def sampleRetried : Recording :=
  { id := 22, file_path := "/data/calls/r.m4a", file_name := "r.m4a"
    file_hash := "hr", file_size := 5
    status := RecordingStatus.queued, retry_count := 2, updated_at := 0 }

/-- The row `reprocess_recording` writes for `sampleProc`. -/
def resetSampleProc : Recording :=
  { sampleProc with
    status := RecordingStatus.queued
    error_message := none
    retry_count := 0 }

/-- Componentwise addition of ingest counters. -/
def addCounts (a b : IngestCounts) : IngestCounts :=
  ⟨a.discovered + b.discovered, a.queued + b.queued, a.skipped + b.skipped⟩

/-- Sum of a list of ingest counters. -/
def sumCounts (l : List IngestCounts) : IngestCounts :=
  l.foldr addCounts ⟨0, 0, 0⟩

/-- The counter contribution of one candidate with `force_reprocess` off,
read against a table: unseen hash counts discovered+queued, a hash of a
`FAILED` row counts queued, any other match counts skipped. -/
def ingest_class (existing : List Recording) (f : FileData) : IngestCounts :=
  match existing.find? (fun r => r.file_hash == f.hash) with
  | none => ⟨1, 1, 0⟩
  | some ex => if ex.status == RecordingStatus.failed then ⟨0, 1, 0⟩ else ⟨0, 0, 1⟩

/-- Whether a candidate (with `force_reprocess` off) hits the requeue
branch: its hash matches an existing `FAILED` row. -/
def isRequeue (existing : List Recording) (f : FileData) : Bool :=
  match existing.find? (fun r => r.file_hash == f.hash) with
  | none => false
  | some ex => ex.status == RecordingStatus.failed

/-- The hashes of the candidates that hit the requeue branch. -/
def requeuedHashes (existing : List Recording) (fs : List FileData) : List String :=
  (fs.filter (fun f => isRequeue existing f)).map (fun f => f.hash)

/-- Ten fresh candidate files with pairwise-distinct hashes. -/
def c8files : List FileData :=
  [⟨"/d/1", "1.m4a", 1, "h1"⟩, ⟨"/d/2", "2.m4a", 1, "h2"⟩,
    ⟨"/d/3", "3.m4a", 1, "h3"⟩, ⟨"/d/4", "4.m4a", 1, "h4"⟩,
    ⟨"/d/5", "5.m4a", 1, "h5"⟩, ⟨"/d/6", "6.m4a", 1, "h6"⟩,
    ⟨"/d/7", "7.m4a", 1, "h7"⟩, ⟨"/d/8", "8.m4a", 1, "h8"⟩,
    ⟨"/d/9", "9.m4a", 1, "h9"⟩, ⟨"/d/10", "10.m4a", 1, "h10"⟩]

/-- A candidate whose bytes duplicate the existing queued row `c8rq`. -/
def c8dup : FileData := ⟨"/d/dup", "dup.m4a", 1, "hq8"⟩

/-- A candidate matching the existing failed row `c8rf`. -/
def c8fail : FileData := ⟨"/d/fail", "fail.m4a", 1, "hf8"⟩

/-- An existing `QUEUED` row, byte-identical to `c8dup`. -/
def c8rq : Recording :=
  { id := 31, file_path := "/d/old", file_name := "old.m4a"
    file_hash := "hq8", file_size := 1, status := RecordingStatus.queued }

/-- An existing `FAILED` row matched by `c8fail`. -/
def c8rf : Recording :=
  { id := 32, file_path := "/d/bad", file_name := "bad.m4a"
    file_hash := "hf8", file_size := 1, status := RecordingStatus.failed
    error_message := some "boom", retry_count := 3 }

/-- The watch-folder row known to the Catalog in the C9 scenario. -/
def c9db : List Recording :=
  [{ id := 41, file_path := "/w/a.m4a", file_name := "a.m4a"
     file_hash := "hx1", file_size := 1, status := RecordingStatus.queued }]

/-- New bytes under a name colliding with the existing row. -/
def c9newA : FileData := ⟨"/w/a.m4a", "a.m4a", 2, "hy1"⟩

/-- The same bytes as `c9newA` under a fresh name. -/
def c9newB : FileData := ⟨"/w/b.m4a", "b.m4a", 2, "hy1"⟩

/-! ### Helper lemmas -/

theorem strContains_intro (p sub q s : String) (h : s = p ++ (sub ++ q)) :
    strContains s sub :=
  ⟨p, q, by rw [h, String.append_assoc]⟩

theorem strContains_trans {s t u : String} (h1 : strContains s t)
    (h2 : strContains t u) : strContains s u := by
  obtain ⟨p, q, rfl⟩ := h1
  obtain ⟨p2, q2, rfl⟩ := h2
  exact ⟨p ++ p2, q2 ++ q, by simp [String.append_assoc]⟩

theorem strContains_append_right (p sub : String) :
    strContains (p ++ sub) sub :=
  ⟨p, "", by simp [String.append_assoc, String.append_empty]⟩

theorem stuckErrorMessage_contains_step (step : String) (segments : Nat)
    (ageMin : Int) : strContains (stuckErrorMessage step segments ageMin) step := by
  refine strContains_intro "Stuck in step " step
    (" (" ++ toString segments ++ " segments); last update " ++
      toString ageMin ++ "m ago (cleanup)") _ ?_
  simp [stuckErrorMessage, String.append_assoc]

theorem stuckErrorMessage_contains_segments (step : String) (segments : Nat)
    (ageMin : Int) :
    strContains (stuckErrorMessage step segments ageMin)
      (toString segments ++ " segments") := by
  refine strContains_intro ("Stuck in step " ++ step ++ " (")
    (toString segments ++ " segments")
    ("); last update " ++ toString ageMin ++ "m ago (cleanup)") _ ?_
  have hsplit : (" segments); last update " : String) =
      " segments" ++ "); last update " := rfl
  simp only [stuckErrorMessage, String.append_assoc]
  rw [hsplit]
  simp only [String.append_assoc]

theorem stuckErrorMessage_contains_age (step : String) (segments : Nat)
    (ageMin : Int) :
    strContains (stuckErrorMessage step segments ageMin)
      (toString ageMin ++ "m ago") := by
  refine strContains_intro
    ("Stuck in step " ++ step ++ " (" ++ toString segments ++
      " segments); last update ")
    (toString ageMin ++ "m ago") " (cleanup)" _ ?_
  have hsplit : ("m ago (cleanup)" : String) = "m ago" ++ " (cleanup)" := rfl
  simp [stuckErrorMessage, hsplit, String.append_assoc]

theorem format_error_message_contains_step (rec : Recording) (msg : String) :
    strContains (format_error_message rec msg) (pyOrStr rec.processing_step "?") := by
  refine strContains_intro "Step " (pyOrStr rec.processing_step "?")
    (" (" ++ toString (orZeroNat rec.processing_segments_count) ++
      " segments): " ++ msg) _ ?_
  simp [format_error_message, String.append_assoc]

theorem format_error_message_contains_segments (rec : Recording) (msg : String) :
    strContains (format_error_message rec msg)
      (toString (orZeroNat rec.processing_segments_count) ++ " segments") := by
  refine strContains_intro
    ("Step " ++ pyOrStr rec.processing_step "?" ++ " (")
    (toString (orZeroNat rec.processing_segments_count) ++ " segments")
    ("): " ++ msg) _ ?_
  have hsplit : (" segments): " : String) = " segments" ++ "): " := rfl
  simp only [format_error_message, String.append_assoc]
  rw [hsplit]
  simp only [String.append_assoc]

theorem format_error_message_contains_text (rec : Recording) (msg : String) :
    strContains (format_error_message rec msg) msg := by
  refine strContains_intro
    ("Step " ++ pyOrStr rec.processing_step "?" ++ " (" ++
      toString (orZeroNat rec.processing_segments_count) ++ " segments): ")
    msg "" _ ?_
  simp [format_error_message, String.append_assoc, String.append_empty]

theorem length_insertByUpdated (r : Recording) (l : List Recording) :
    (insertByUpdated r l).length = l.length + 1 := by
  induction l with
  | nil => rfl
  | cons x xs ih =>
    simp only [insertByUpdated]
    split <;> simp [ih]

theorem mem_insertByUpdated {a r : Recording} {l : List Recording} :
    a ∈ insertByUpdated r l ↔ a = r ∨ a ∈ l := by
  induction l with
  | nil => simp [insertByUpdated]
  | cons x xs ih =>
    simp only [insertByUpdated]
    split
    · simp
    · simp only [List.mem_cons, ih]
      tauto

theorem mem_sortByUpdated {a : Recording} {l : List Recording} :
    a ∈ sortByUpdated l ↔ a ∈ l := by
  induction l with
  | nil => simp [sortByUpdated]
  | cons x xs ih => simp [sortByUpdated, mem_insertByUpdated, ih]

theorem stuckSweepOne_id (known : Finset Nat) (maxRetries : Nat)
    (cutoff now : Int) (rec : Recording) :
    (stuckSweepOne known maxRetries cutoff now rec).id = rec.id := by
  simp only [stuckSweepOne]
  split
  · rfl
  split
  · rfl
  split
  · rfl
  split <;> rfl

/-! ### Claim theorems -/

/-- C1: one run of the stuck-recovery sweep over a `PROCESSING` record
whose id the runtime does not know and whose `updated_at` is older than
the stuck cutoff increments `retry_count` by 1 and then moves it to
`QUEUED` with `error_message` cleared if still below `maxRetries`, else to
`FAILED` with a message containing the last step, the segments count and
the staleness age; a `PROCESSING` record that is known to the runtime or
fresher than the cutoff is left untouched. -/
theorem C1_stuck_recovery (known : Finset Nat) (maxRetries : Nat)
    (cutoff now : Int) (rec : Recording) :
    (rec.status = RecordingStatus.processing → rec.id ∉ known →
      rec.updated_at < cutoff →
      ((stuckSweepOne known maxRetries cutoff now rec).retry_count
          = rec.retry_count + 1 ∧
        (rec.retry_count + 1 < maxRetries →
          (stuckSweepOne known maxRetries cutoff now rec).status
              = RecordingStatus.queued ∧
            (stuckSweepOne known maxRetries cutoff now rec).error_message = none) ∧
        (maxRetries ≤ rec.retry_count + 1 →
          (stuckSweepOne known maxRetries cutoff now rec).status
              = RecordingStatus.failed ∧
            ∃ s : String,
              (stuckSweepOne known maxRetries cutoff now rec).error_message
                  = some s ∧
                strContains s (pyOrStr rec.processing_step "?") ∧
                strContains s
                  (toString (orZeroNat rec.processing_segments_count) ++
                    " segments") ∧
                strContains s
                  (toString (Int.ediv (now - rec.updated_at) 60) ++ "m ago")))) ∧
    (rec.status = RecordingStatus.processing →
      rec.id ∈ known ∨ cutoff ≤ rec.updated_at →
      stuckSweepOne known maxRetries cutoff now rec = rec) := by
  constructor
  · intro hs hk hu
    have hne : ¬rec.status ≠ RecordingStatus.processing := by simp [hs]
    have hcut : ¬cutoff ≤ rec.updated_at := not_le.mpr hu
    simp only [stuckSweepOne]
    rw [if_neg hne, if_neg hk, if_neg hcut]
    by_cases hm : maxRetries ≤ rec.retry_count + 1
    · rw [if_pos hm]
      refine ⟨rfl, fun hlt => absurd hm (not_le.mpr hlt), fun _ => ⟨rfl, ?_⟩⟩
      exact ⟨_, rfl, stuckErrorMessage_contains_step _ _ _,
        stuckErrorMessage_contains_segments _ _ _,
        stuckErrorMessage_contains_age _ _ _⟩
    · rw [if_neg hm]
      exact ⟨rfl, fun _ => ⟨rfl, rfl⟩, fun h => absurd h hm⟩
  · intro hs hor
    have hne : ¬rec.status ≠ RecordingStatus.processing := by simp [hs]
    simp only [stuckSweepOne]
    rw [if_neg hne]
    by_cases hk : rec.id ∈ known
    · rw [if_pos hk]
    · rcases hor with h | h
      · exact absurd h hk
      · rw [if_neg hk, if_pos h]

theorem C1_stuck_recovery_witness :
    (stuckSweepOne ∅ 3 100 1000 sampleStuck).retry_count
        = sampleStuck.retry_count + 1 ∧
      (stuckSweepOne ∅ 3 100 1000 sampleStuck).status = RecordingStatus.failed ∧
      stuckSweepOne ∅ 3 100 1000 sampleFresh = sampleFresh := by
  have h := C1_stuck_recovery ∅ 3 100 1000 sampleStuck
  have h2 := C1_stuck_recovery ∅ 3 100 1000 sampleFresh
  exact ⟨(h.1 rfl (by decide) (by decide)).1,
    ((h.1 rfl (by decide) (by decide)).2.2 (by decide)).1,
    h2.2 rfl (Or.inr (by decide))⟩

/-- C2: on a fatal pipeline error (timeout or generic exception) where the
row exists, the worker persists an `error_message` containing the current
`processing_step`, the `processing_segments_count` and the failure text,
stores the task retry counter, and sets `QUEUED` when that counter is
below `maxRetries`, else `FAILED`. -/
theorem C2_worker_fatal_error (maxRetries taskRetries : Nat) (err : FatalError)
    (rec : Recording) :
    ∃ s : String,
      (worker_handle_fatal maxRetries taskRetries err rec).error_message
          = some s ∧
        strContains s (pyOrStr rec.processing_step "?") ∧
        strContains s
          (toString (orZeroNat rec.processing_segments_count) ++ " segments") ∧
        strContains s err.txt ∧
        (worker_handle_fatal maxRetries taskRetries err rec).retry_count
            = taskRetries ∧
        (taskRetries < maxRetries →
          (worker_handle_fatal maxRetries taskRetries err rec).status
              = RecordingStatus.queued) ∧
        (maxRetries ≤ taskRetries →
          (worker_handle_fatal maxRetries taskRetries err rec).status
              = RecordingStatus.failed) := by
  cases err with
  | timeout txt =>
    by_cases hm : maxRetries ≤ taskRetries
    · simp only [worker_handle_fatal]
      rw [if_pos hm]
      refine ⟨_, rfl, format_error_message_contains_step _ _,
        format_error_message_contains_segments _ _, ?_, rfl,
        fun hlt => absurd hm (not_le.mpr hlt), fun _ => rfl⟩
      exact strContains_trans (format_error_message_contains_text _ _)
        (strContains_append_right
          ("Timeout exceeded after " ++ toString taskRetries ++ " retries: ") txt)
    · simp only [worker_handle_fatal]
      rw [if_neg hm]
      refine ⟨_, rfl, format_error_message_contains_step _ _,
        format_error_message_contains_segments _ _, ?_, rfl,
        fun _ => rfl, fun h => absurd h hm⟩
      exact strContains_trans (format_error_message_contains_text _ _)
        (strContains_append_right "Timeout exceeded: " txt)
  | generic txt =>
    by_cases hm : maxRetries ≤ taskRetries
    · simp only [worker_handle_fatal]
      rw [if_pos hm]
      exact ⟨_, rfl, format_error_message_contains_step _ _,
        format_error_message_contains_segments _ _,
        format_error_message_contains_text _ _, rfl,
        fun hlt => absurd hm (not_le.mpr hlt), fun _ => rfl⟩
    · simp only [worker_handle_fatal]
      rw [if_neg hm]
      exact ⟨_, rfl, format_error_message_contains_step _ _,
        format_error_message_contains_segments _ _,
        format_error_message_contains_text _ _, rfl,
        fun _ => rfl, fun h => absurd h hm⟩

theorem C2_worker_fatal_error_witness :
    (worker_handle_fatal 3 1 (FatalError.generic "boom") sampleProc).retry_count
        = 1 ∧
      (worker_handle_fatal 3 1 (FatalError.generic "boom") sampleProc).status
          = RecordingStatus.queued ∧
      (worker_handle_fatal 3 3 (FatalError.timeout "hard limit") sampleProc).status
          = RecordingStatus.failed := by
  obtain ⟨s, hmsg, hstep, hseg, htxt, hretry, hq, hf⟩ :=
    C2_worker_fatal_error 3 1 (FatalError.generic "boom") sampleProc
  obtain ⟨s2, hmsg2, hstep2, hseg2, htxt2, hretry2, hq2, hf2⟩ :=
    C2_worker_fatal_error 3 3 (FatalError.timeout "hard limit") sampleProc
  exact ⟨hretry, hq (by decide), hf2 (by decide)⟩

/-- C3: one dispatcher cycle never moves more than
`max(0, ceiling − known_in_flight)` records from `QUEUED` to `PROCESSING`
and into the runtime, and when that room is ≤ 0 nothing is dispatched. -/
theorem C3_admission_bound (known : Finset Nat) (maxRetries : Nat)
    (cutoff now : Int) (db : List Recording) :
    ((enqueue_pending_recordings known maxRetries cutoff now db).enqueued : Int)
        ≤ max 0 ((MAX_CELERY_PENDING : Int) - known.card) ∧
      (enqueue_pending_recordings known maxRetries cutoff now db).dispatched.length
        = (enqueue_pending_recordings known maxRetries cutoff now db).enqueued ∧
      ((MAX_CELERY_PENDING : Int) - known.card ≤ 0 →
        (enqueue_pending_recordings known maxRetries cutoff now db).enqueued
            = 0 ∧
          (enqueue_pending_recordings known maxRetries cutoff now db).dispatched
            = []) := by
  by_cases h : MAX_CELERY_PENDING - known.card = 0
  · simp only [enqueue_pending_recordings]
    rw [if_pos h]
    exact ⟨by simp, rfl, fun _ => ⟨rfl, rfl⟩⟩
  · simp only [enqueue_pending_recordings]
    rw [if_neg h]
    have hcard : known.card < MAX_CELERY_PENDING := by omega
    refine ⟨?_, List.length_map _ _, fun hle => absurd hle (by omega)⟩
    have hlen :
        ((sortByUpdated (((db.map (stuckSweepOne known maxRetries cutoff now))).filter
            (fun r => decide (r.status = RecordingStatus.queued)))).take
          (MAX_CELERY_PENDING - known.card)).length
        ≤ MAX_CELERY_PENDING - known.card := by
      rw [List.length_take]
      exact Nat.min_le_left _ _
    push_cast
    omega

theorem C3_admission_bound_witness :
    (enqueue_pending_recordings {1, 2, 3, 4, 5} 3 100 1000
        [sampleQueuedOld]).enqueued = 0 ∧
      (enqueue_pending_recordings {1, 2, 3, 4, 5} 3 100 1000
        [sampleQueuedOld]).dispatched = [] := by
  exact (C3_admission_bound {1, 2, 3, 4, 5} 3 100 1000 [sampleQueuedOld]).2.2
    (by decide)

/-- C4 counterexample: a `QUEUED` record whose `retry_count` already
equals the maximum of 3 is nevertheless selected by the dispatch query
(which filters on status only), set to `PROCESSING` and submitted. -/
theorem C4_counterexample :
    3 ≤ exhaustedQueued.retry_count ∧
      (enqueue_pending_recordings ∅ 3 0 0 [exhaustedQueued]).dispatched
          = [21] ∧
      (enqueue_pending_recordings ∅ 3 0 0 [exhaustedQueued]).db
        = [{ exhaustedQueued with status := RecordingStatus.processing }] := by
  decide

/-- C4 amended: the dispatch query does not exclude retry-exhausted
records; the guard lives elsewhere — the worker entry refuses a record
whose stored `retry_count` reached the maximum (marking it `FAILED`
without doing work), and neither the stuck sweep nor the worker failure
handlers ever leave a record `QUEUED` with `retry_count ≥ maxRetries`. -/
theorem C4_exhaustion_guard (known : Finset Nat)
    (maxRetries taskRetries : Nat) (cutoff now : Int) (rec : Recording) :
    (rec.status ≠ RecordingStatus.done → maxRetries ≤ rec.retry_count →
      (worker_entry maxRetries taskRetries rec).2
          = EntryOutcome.refusedFailed ∧
        (worker_entry maxRetries taskRetries rec).1.status
          = RecordingStatus.failed) ∧
    (rec.status = RecordingStatus.processing →
      (stuckSweepOne known maxRetries cutoff now rec).status
          = RecordingStatus.queued →
      (stuckSweepOne known maxRetries cutoff now rec).retry_count
        < maxRetries) ∧
    (∀ err : FatalError,
      (worker_handle_fatal maxRetries taskRetries err rec).status
          = RecordingStatus.queued →
      (worker_handle_fatal maxRetries taskRetries err rec).retry_count
        < maxRetries) := by
  refine ⟨fun hdone hmax => ?_, fun hs habs => ?_, fun err habs => ?_⟩
  · simp only [worker_entry]
    rw [if_neg hdone, if_pos hmax]
    exact ⟨rfl, rfl⟩
  · revert habs
    simp only [stuckSweepOne]
    have hne : ¬rec.status ≠ RecordingStatus.processing := by simp [hs]
    rw [if_neg hne]
    by_cases hk : rec.id ∈ known
    · rw [if_pos hk]
      intro habs
      exact absurd habs (by simp [hs])
    · rw [if_neg hk]
      by_cases hcut : cutoff ≤ rec.updated_at
      · rw [if_pos hcut]
        intro habs
        exact absurd habs (by simp [hs])
      · rw [if_neg hcut]
        by_cases hm : maxRetries ≤ rec.retry_count + 1
        · rw [if_pos hm]
          intro habs
          simp at habs
        · rw [if_neg hm]
          intro _
          show rec.retry_count + 1 < maxRetries
          omega
  · revert habs
    cases err with
    | timeout txt =>
      by_cases hm : maxRetries ≤ taskRetries
      · simp only [worker_handle_fatal]
        rw [if_pos hm]
        intro habs
        simp at habs
      · simp only [worker_handle_fatal]
        rw [if_neg hm]
        intro _
        show taskRetries < maxRetries
        omega
    | generic txt =>
      by_cases hm : maxRetries ≤ taskRetries
      · simp only [worker_handle_fatal]
        rw [if_pos hm]
        intro habs
        simp at habs
      · simp only [worker_handle_fatal]
        rw [if_neg hm]
        intro _
        show taskRetries < maxRetries
        omega

theorem C4_exhaustion_guard_witness :
    (worker_entry 3 0 exhaustedQueued).2 = EntryOutcome.refusedFailed ∧
      (worker_entry 3 0 exhaustedQueued).1.status = RecordingStatus.failed := by
  exact (C4_exhaustion_guard ∅ 3 0 0 0 exhaustedQueued).1 (by decide) (by decide)

/-- C5 counterexample: the worker entry write stores the runtime task
counter over a larger stored `retry_count` — a fresh dispatch
(`taskRetries = 0`) of a record holding two stuck-recovery increments
passes the entry guard and lowers `retry_count` from 2 to 0. -/
theorem C5_counterexample :
    sampleRetried.retry_count = 2 ∧
      (worker_entry 3 0 sampleRetried).2 = EntryOutcome.proceed ∧
      (worker_entry 3 0 sampleRetried).1.retry_count = 0 := by
  decide

/-- C5 amended: the dispatcher stuck sweep never lowers `retry_count` (it
increments it or leaves the record untouched); only the worker writes,
which assign the runtime task counter, can store a smaller value. -/
theorem C5_stuck_sweep_monotone (known : Finset Nat) (maxRetries : Nat)
    (cutoff now : Int) (rec : Recording) :
    rec.retry_count ≤ (stuckSweepOne known maxRetries cutoff now rec).retry_count := by
  simp only [stuckSweepOne]
  split
  · exact le_refl _
  split
  · exact le_refl _
  split
  · exact le_refl _
  split
  · exact Nat.le_succ _
  · exact Nat.le_succ _

/-- C6 counterexample: the stuck sweep moves a stale `PROCESSING` record
to `QUEUED` without clearing `processing_step` or
`processing_segments_count`, so a non-`PROCESSING` record is left with
non-null transient fields. -/
theorem C6_counterexample :
    (stuckSweepOne ∅ 3 100 1000 sampleProc).status = RecordingStatus.queued ∧
      (stuckSweepOne ∅ 3 100 1000 sampleProc).processing_step
          = some "transcribe" ∧
      (stuckSweepOne ∅ 3 100 1000 sampleProc).processing_segments_count
        = some 12 := by
  decide

/-- C6 amended: the worker clears `processing_step`,
`processing_step_started_at` and `processing_segments_count` on every exit
path (the `finally` cleanup and the success tail), but the dispatcher
stuck sweep does not touch the transient fields, so the non-null-iff-
`PROCESSING` equivalence fails for records it reclaims. -/
theorem C6_worker_clears_transient (known : Finset Nat) (maxRetries : Nat)
    (cutoff now : Int) (rec : Recording) :
    (worker_cleanup rec).processing_step = none ∧
      (worker_cleanup rec).processing_step_started_at = none ∧
      (worker_cleanup rec).processing_segments_count = none ∧
      (worker_mark_done now rec).processing_step = none ∧
      (worker_mark_done now rec).processing_step_started_at = none ∧
      (worker_mark_done now rec).processing_segments_count = none ∧
      (stuckSweepOne known maxRetries cutoff now rec).processing_step
          = rec.processing_step ∧
      (stuckSweepOne known maxRetries cutoff now rec).processing_segments_count
        = rec.processing_segments_count := by
  refine ⟨?_, ?_, ?_, rfl, rfl, rfl, ?_, ?_⟩
  · by_cases h1 : rec.processing_segments_count = none <;>
      by_cases h2 : rec.processing_step = none <;>
        by_cases h3 : rec.processing_step_started_at = none <;>
          simp [worker_cleanup, h1, h2, h3]
  · by_cases h1 : rec.processing_segments_count = none <;>
      by_cases h2 : rec.processing_step = none <;>
        by_cases h3 : rec.processing_step_started_at = none <;>
          simp [worker_cleanup, h1, h2, h3]
  · by_cases h1 : rec.processing_segments_count = none <;>
      by_cases h2 : rec.processing_step = none <;>
        by_cases h3 : rec.processing_step_started_at = none <;>
          simp [worker_cleanup, h1, h2, h3]
  · simp only [stuckSweepOne]
    split
    · rfl
    split
    · rfl
    split
    · rfl
    split <;> rfl
  · simp only [stuckSweepOne]
    split
    · rfl
    split
    · rfl
    split
    · rfl
    split <;> rfl

/-- C7 counterexample: asked to reprocess a `PROCESSING` record, the
endpoint does not no-op — it resets the record to `QUEUED` (an illegal
`PROCESSING → QUEUED` transition by a component other than the worker or
the dispatcher). -/
theorem C7_counterexample :
    sampleProc.status = RecordingStatus.processing ∧
      reprocess_recording [sampleProc] 13 = some [resetSampleProc] ∧
      reprocess_recording [sampleProc] 13 ≠ some [sampleProc] := by
  decide

/-- C7 amended: the dispatcher respects the transition table — the stuck
sweep either leaves a record unchanged or moves a `PROCESSING` record to
`QUEUED`/`FAILED`, every row it writes is the sweep image possibly
claimed `QUEUED → PROCESSING`, and every id it submits belongs to a row
that was `QUEUED` after the sweep — but the reprocess endpoint resets any
found record to `QUEUED` (clearing error and retry) whatever its current
status, including `PROCESSING` and `QUEUED`, instead of no-opping. -/
theorem C7_transition_table (known : Finset Nat) (maxRetries : Nat)
    (cutoff now : Int) (db db2 : List Recording) (rid : Nat) (rec : Recording) :
    (reprocess_recording db rid = some db2 → ∀ r ∈ db2,
      (r.id ≠ rid ∧ r ∈ db) ∨
        (r.id = rid ∧ r.status = RecordingStatus.queued ∧
          r.error_message = none ∧ r.retry_count = 0)) ∧
    (stuckSweepOne known maxRetries cutoff now rec = rec ∨
      (rec.status = RecordingStatus.processing ∧
        ((stuckSweepOne known maxRetries cutoff now rec).status
            = RecordingStatus.queued ∨
          (stuckSweepOne known maxRetries cutoff now rec).status
            = RecordingStatus.failed))) ∧
    ((db.map (fun r => r.id)).Nodup →
      ∀ r2 ∈ (enqueue_pending_recordings known maxRetries cutoff now db).db,
        ∃ r0 ∈ db,
          r2 = stuckSweepOne known maxRetries cutoff now r0 ∨
            (r2 = { stuckSweepOne known maxRetries cutoff now r0 with
                      status := RecordingStatus.processing } ∧
              (stuckSweepOne known maxRetries cutoff now r0).status
                = RecordingStatus.queued)) ∧
    (∀ i ∈ (enqueue_pending_recordings known maxRetries cutoff now db).dispatched,
      ∃ r0 ∈ db,
        (stuckSweepOne known maxRetries cutoff now r0).status
            = RecordingStatus.queued ∧
          (stuckSweepOne known maxRetries cutoff now r0).id = i) := by
  refine ⟨?_, ?_, ?_, ?_⟩
  · intro hrep r hr
    unfold reprocess_recording at hrep
    cases hfind : db.find? (fun r => r.id == rid) with
    | none => rw [hfind] at hrep; exact absurd hrep (by simp)
    | some found =>
      rw [hfind] at hrep
      have hdb2 : db2 = db.map (fun r =>
          if r.id == rid then
            { r with
              status := RecordingStatus.queued
              error_message := none
              retry_count := 0 }
          else r) := by
        exact (Option.some.injEq _ _ ▸ hrep).symm
      subst hdb2
      obtain ⟨r0, hr0, hr0eq⟩ := List.mem_map.mp hr
      by_cases hid : r0.id = rid
      · right
        rw [if_pos (beq_iff_eq.mpr hid)] at hr0eq
        subst hr0eq
        exact ⟨hid, rfl, rfl, rfl⟩
      · left
        rw [if_neg (by simpa using hid)] at hr0eq
        subst hr0eq
        exact ⟨hid, hr0⟩
  · simp only [stuckSweepOne]
    split
    · exact Or.inl rfl
    next hne =>
      split
      · exact Or.inl rfl
      split
      · exact Or.inl rfl
      split
      · exact Or.inr ⟨not_not.mp hne, Or.inr rfl⟩
      · exact Or.inr ⟨not_not.mp hne, Or.inl rfl⟩
  · intro hnodup r2 hr2
    have hids : ((db.map (stuckSweepOne known maxRetries cutoff now)).map
        (fun r => r.id)).Nodup := by
      rw [List.map_map]
      have : ((fun r => r.id) ∘ stuckSweepOne known maxRetries cutoff now)
          = fun r : Recording => r.id := by
        funext r
        exact stuckSweepOne_id known maxRetries cutoff now r
      rw [this]
      exact hnodup
    revert hr2
    simp only [enqueue_pending_recordings]
    split
    · intro hr2
      obtain ⟨r0, hr0, hr0eq⟩ := List.mem_map.mp hr2
      exact ⟨r0, hr0, Or.inl hr0eq.symm⟩
    · intro hr2
      obtain ⟨rmid, hrmid, hflip⟩ := List.mem_map.mp hr2
      obtain ⟨r0, hr0, hr0eq⟩ := List.mem_map.mp hrmid
      refine ⟨r0, hr0, ?_⟩
      by_cases hc :
          (((sortByUpdated ((db.map (stuckSweepOne known maxRetries cutoff now)).filter
              (fun r => decide (r.status = RecordingStatus.queued)))).take
            (MAX_CELERY_PENDING - known.card)).map (fun r => r.id)).contains rmid.id
      · rw [if_pos hc] at hflip
        right
        have hmem : rmid.id ∈ ((sortByUpdated ((db.map
            (stuckSweepOne known maxRetries cutoff now)).filter
              (fun r => decide (r.status = RecordingStatus.queued)))).take
            (MAX_CELERY_PENDING - known.card)).map (fun r => r.id) := by
          simpa using hc
        obtain ⟨t, ht, htid⟩ := List.mem_map.mp hmem
        have htf : t ∈ (db.map (stuckSweepOne known maxRetries cutoff now)).filter
            (fun r => decide (r.status = RecordingStatus.queued)) :=
          mem_sortByUpdated.mp (List.mem_of_mem_take ht)
        have htmem := (List.mem_filter.mp htf).1
        have htq : t.status = RecordingStatus.queued :=
          of_decide_eq_true (List.mem_filter.mp htf).2
        have hteq : t = rmid :=
          List.inj_on_of_nodup_map hids htmem hrmid htid
        subst hr0eq
        exact ⟨hflip.symm, hteq ▸ htq⟩
      · rw [if_neg hc] at hflip
        subst hr0eq
        exact Or.inl hflip.symm
  · intro i hi
    revert hi
    simp only [enqueue_pending_recordings]
    split
    · intro hi
      exact absurd hi (by simp)
    · intro hi
      obtain ⟨t, ht, htid⟩ := List.mem_map.mp hi
      have htf : t ∈ (db.map (stuckSweepOne known maxRetries cutoff now)).filter
          (fun r => decide (r.status = RecordingStatus.queued)) :=
        mem_sortByUpdated.mp (List.mem_of_mem_take ht)
      have htq : t.status = RecordingStatus.queued :=
        of_decide_eq_true (List.mem_filter.mp htf).2
      obtain ⟨r0, hr0, hr0eq⟩ := List.mem_map.mp (List.mem_filter.mp htf).1
      exact ⟨r0, hr0, hr0eq.symm ▸ ⟨htq, htid⟩⟩

theorem C7_transition_table_witness :
    ((resetSampleProc.id ≠ 13 ∧ resetSampleProc ∈ [sampleProc]) ∨
      (resetSampleProc.id = 13 ∧ resetSampleProc.status = RecordingStatus.queued ∧
        resetSampleProc.error_message = none ∧ resetSampleProc.retry_count = 0)) ∧
    (∃ r0 ∈ [sampleQueuedOld],
      (stuckSweepOne ∅ 3 100 1000 r0).status = RecordingStatus.queued ∧
        (stuckSweepOne ∅ 3 100 1000 r0).id = 14) := by
  constructor
  · exact (C7_transition_table ∅ 3 100 1000 [sampleProc] [resetSampleProc] 13
        sampleProc).1 (by decide) resetSampleProc (by decide)
  · exact (C7_transition_table ∅ 3 100 1000 [sampleQueuedOld] [] 13
        sampleQueuedOld).2.2.2 14 (by decide)

theorem lookupSize_setSize (cache : List (String × Nat)) (path : String)
    (v : Nat) : lookupSize (setSize cache path v) path = some v := by
  induction cache with
  | nil => simp [setSize, lookupSize]
  | cons kv rest ih =>
    obtain ⟨k, w⟩ := kv
    simp only [setSize]
    split
    · simp [lookupSize]
    · next hne => simp [lookupSize, hne, ih]

/-- C10: stability detection is two-phase — a file seen for the first
time is never ready on that poll, a file whose size differs from the
previous observation is never ready, a failed stat is never ready, and a
file is ready exactly when its modification age reached
`stable_seconds` and its size equals the previously cached observation;
consequently two consecutive equal-size stale-mtime polls of a fresh path
report not-ready then ready. -/
theorem C10_stability (stable_seconds now mtime : Int) (size : Nat)
    (cache : List (String × Nat)) (path : String) :
    (lookupSize cache path = none →
      (is_file_ready stable_seconds now cache path (some (mtime, size))).1
        = false) ∧
    (∀ l, lookupSize cache path = some l → l ≠ size →
      (is_file_ready stable_seconds now cache path (some (mtime, size))).1
        = false) ∧
    ((is_file_ready stable_seconds now cache path (some (mtime, size))).1
        = true ↔
      stable_seconds ≤ now - mtime ∧ lookupSize cache path = some size) ∧
    (is_file_ready stable_seconds now cache path none).1 = false ∧
    (lookupSize cache path = none → stable_seconds ≤ now - mtime →
      ∀ now2 mtime2 : Int, stable_seconds ≤ now2 - mtime2 →
        (is_file_ready stable_seconds now2
          (is_file_ready stable_seconds now cache path (some (mtime, size))).2
          path (some (mtime2, size))).1 = true) := by
  refine ⟨?_, ?_, ?_, rfl, ?_⟩
  · intro hnone
    simp only [is_file_ready]
    split
    · rfl
    · simp [hnone]
  · intro l hl hne
    simp only [is_file_ready]
    split
    · rfl
    · simp [hl, hne]
  · by_cases hrec : now - mtime < stable_seconds
    · have h2 : ¬stable_seconds ≤ now - mtime := not_le.mpr hrec
      simp [is_file_ready, hrec, h2]
    · have hle : stable_seconds ≤ now - mtime := not_lt.mp hrec
      cases hcache : lookupSize cache path with
      | none => simp [is_file_ready, hrec, hcache, hle]
      | some l => simp [is_file_ready, hrec, hcache, hle, eq_comm]
  · intro hnone hle now2 mtime2 hle2
    have hrec : ¬now - mtime < stable_seconds := not_lt.mpr hle
    have hrec2 : ¬now2 - mtime2 < stable_seconds := not_lt.mpr hle2
    have hc2 : (is_file_ready stable_seconds now cache path
        (some (mtime, size))).2 = setSize cache path size := by
      simp [is_file_ready, hrec, hnone]
    rw [hc2]
    simp [is_file_ready, hrec2, lookupSize_setSize]

theorem C10_stability_witness :
    (is_file_ready 10 100 [] "/data/calls/a.m4a" (some (50, 7))).1 = false ∧
      (is_file_ready 10 200
        (is_file_ready 10 100 [] "/data/calls/a.m4a" (some (50, 7))).2
        "/data/calls/a.m4a" (some (50, 7))).1 = true := by
  have h := C10_stability 10 100 50 7 [] "/data/calls/a.m4a"
  exact ⟨h.1 rfl, h.2.2.2.2 rfl (by decide) 200 50 (by decide)⟩

theorem requeueReset_file_hash (r : Recording) :
    (requeueReset r).file_hash = r.file_hash := rfl

theorem find?_requeue_map (existing : List Recording) (h0 hg : String)
    (hne : hg ≠ h0) :
    ((existing.map (fun r =>
        if r.file_hash == h0 then requeueReset r else r)).find?
        (fun r => r.file_hash == hg))
      = existing.find? (fun r => r.file_hash == hg) := by
  induction existing with
  | nil => rfl
  | cons r rest ih =>
    simp only [List.map_cons]
    by_cases hr : (r.file_hash == h0) = true
    · rw [if_pos hr]
      have hrh : r.file_hash = h0 := beq_iff_eq.mp hr
      have hph : ((requeueReset r).file_hash == hg) = false := by
        simp [requeueReset_file_hash, hrh, Ne.symm hne]
      have hp2 : (r.file_hash == hg) = false := by
        simp [hrh, Ne.symm hne]
      simp only [List.find?, hph, hp2]
      exact ih
    · rw [if_neg hr]
      cases hpb : (r.file_hash == hg) with
      | true => simp only [List.find?, hpb]
      | false =>
        simp only [List.find?, hpb]
        exact ih

theorem ingest_class_requeue_map (existing : List Recording) (f g : FileData)
    (hne : g.hash ≠ f.hash) :
    ingest_class (existing.map (fun r =>
        if r.file_hash == f.hash then requeueReset r else r)) g
      = ingest_class existing g := by
  simp only [ingest_class, find?_requeue_map existing f.hash g.hash hne]

theorem sumCounts_cons (c : IngestCounts) (l : List IngestCounts) :
    sumCounts (c :: l) = addCounts c (sumCounts l) := rfl

/-- The counters returned by the per-candidate loop of `ingest_folder`
with `force_reprocess` off: when the batch has pairwise-distinct hashes,
none handled before, the result adds one contribution per candidate,
classified against the pre-existing table. -/
theorem ingestLoop_counts (fs : List FileData) (existing news : List Recording)
    (counts : IngestCounts) (seen : List String) (n : Nat)
    (hnodup : (fs.map (fun f => f.hash)).Nodup)
    (hseen : ∀ f ∈ fs, f.hash ∉ seen) :
    (ingestLoop false fs existing news counts seen n).2.2
      = addCounts counts (sumCounts (fs.map (ingest_class existing))) := by
  induction fs generalizing existing news counts seen n with
  | nil =>
    simp only [ingestLoop, List.map_nil]
    cases counts
    simp [sumCounts, addCounts]
  | cons f fs ih =>
    have hmap : ((f :: fs).map (fun f => f.hash)).Nodup := hnodup
    rw [List.map_cons] at hmap
    have hhead : f.hash ∉ fs.map (fun f => f.hash) := (List.nodup_cons.mp hmap).1
    have htail : (fs.map (fun f => f.hash)).Nodup := (List.nodup_cons.mp hmap).2
    have hf : f.hash ∉ seen := hseen f (by simp)
    have hseen2 : ∀ g ∈ fs, g.hash ∉ f.hash :: seen := by
      intro g hg
      simp only [List.mem_cons]
      push_neg
      refine ⟨fun he => hhead (he ▸ List.mem_map_of_mem _ hg),
        hseen g (List.mem_cons_of_mem f hg)⟩
    simp only [ingestLoop]
    rw [if_neg hf]
    cases hfind : existing.find? (fun r => r.file_hash == f.hash) with
    | none =>
      simp only [hfind]
      rw [ih existing _ _ _ _ htail hseen2]
      simp only [List.map_cons, sumCounts_cons, ingest_class, hfind]
      cases counts
      simp only [addCounts, IngestCounts.mk.injEq]
      omega
    | some ex =>
      by_cases hst : (ex.status == RecordingStatus.failed) = true
      · simp only [hfind, Bool.false_or, if_pos hst]
        rw [ih (existing.map (fun r =>
            if r.file_hash == f.hash then requeueReset r else r)) _ _ _ _
          htail hseen2]
        have hcong : fs.map (ingest_class (existing.map (fun r =>
            if r.file_hash == f.hash then requeueReset r else r)))
            = fs.map (ingest_class existing) := by
          refine List.map_congr_left (fun g hg => ?_)
          refine ingest_class_requeue_map existing f g (fun he => ?_)
          exact hhead (he ▸ List.mem_map_of_mem _ hg)
        rw [hcong]
        simp only [List.map_cons, sumCounts_cons, ingest_class, hfind, if_pos hst]
        cases counts
        simp only [addCounts, IngestCounts.mk.injEq]
        omega
      · simp only [hfind, Bool.false_or, if_neg hst]
        rw [ih existing _ _ _ _ htail hseen2]
        simp only [List.map_cons, sumCounts_cons, ingest_class, hfind, if_neg hst]
        cases counts
        simp only [addCounts, IngestCounts.mk.injEq]
        omega

theorem isRequeue_requeue_map (existing : List Recording) (f g : FileData)
    (hne : g.hash ≠ f.hash) :
    isRequeue (existing.map (fun r =>
        if r.file_hash == f.hash then requeueReset r else r)) g
      = isRequeue existing g := by
  simp only [isRequeue, find?_requeue_map existing f.hash g.hash hne]

theorem mem_requeuedHashes {h : String} {existing : List Recording}
    {fs : List FileData} (hmem : h ∈ requeuedHashes existing fs) :
    h ∈ fs.map (fun f => f.hash) := by
  simp only [requeuedHashes] at hmem
  obtain ⟨f, hf, hfh⟩ := List.mem_map.mp hmem
  exact hfh ▸ List.mem_map_of_mem _ (List.mem_of_mem_filter hf)

/-- How the pre-existing rows evolve under the per-candidate loop of
`ingest_folder` with `force_reprocess` off: exactly the rows whose hash
is brought in by a candidate classified requeue are reset to `QUEUED`,
and nothing else changes. -/
theorem ingestLoop_existing (fs : List FileData) (existing news : List Recording)
    (counts : IngestCounts) (seen : List String) (n : Nat)
    (hnodup : (fs.map (fun f => f.hash)).Nodup)
    (hseen : ∀ f ∈ fs, f.hash ∉ seen) :
    (ingestLoop false fs existing news counts seen n).1
      = existing.map (fun r =>
          if r.file_hash ∈ requeuedHashes existing fs then requeueReset r
          else r) := by
  induction fs generalizing existing news counts seen n with
  | nil =>
    simp only [ingestLoop, requeuedHashes, List.filter_nil, List.map_nil,
      List.not_mem_nil, if_false]
    exact (List.map_id' existing).symm
  | cons f fs ih =>
    have hmap : ((f :: fs).map (fun f => f.hash)).Nodup := hnodup
    rw [List.map_cons] at hmap
    have hhead : f.hash ∉ fs.map (fun f => f.hash) := (List.nodup_cons.mp hmap).1
    have htail : (fs.map (fun f => f.hash)).Nodup := (List.nodup_cons.mp hmap).2
    have hf : f.hash ∉ seen := hseen f (by simp)
    have hseen2 : ∀ g ∈ fs, g.hash ∉ f.hash :: seen := by
      intro g hg
      simp only [List.mem_cons]
      push_neg
      refine ⟨fun he => hhead (he ▸ List.mem_map_of_mem _ hg),
        hseen g (List.mem_cons_of_mem f hg)⟩
    simp only [ingestLoop]
    rw [if_neg hf]
    cases hfind : existing.find? (fun r => r.file_hash == f.hash) with
    | none =>
      simp only [hfind]
      rw [ih existing _ _ _ _ htail hseen2]
      have hfalse : isRequeue existing f = false := by simp [isRequeue, hfind]
      have hreq : requeuedHashes existing (f :: fs)
          = requeuedHashes existing fs := by
        simp [requeuedHashes, List.filter_cons, hfalse]
      rw [hreq]
    | some ex =>
      by_cases hst : (ex.status == RecordingStatus.failed) = true
      · simp only [hfind, Bool.false_or, if_pos hst]
        rw [ih (existing.map (fun r =>
            if r.file_hash == f.hash then requeueReset r else r)) _ _ _ _
          htail hseen2]
        have hreqA : requeuedHashes (existing.map (fun r =>
            if r.file_hash == f.hash then requeueReset r else r)) fs
            = requeuedHashes existing fs := by
          simp only [requeuedHashes]
          congr 1
          refine List.filter_congr (fun g hg => ?_)
          exact isRequeue_requeue_map existing f g
            (fun he => hhead (he ▸ List.mem_map_of_mem _ hg))
        rw [hreqA, List.map_map]
        have htrue : isRequeue existing f = true := by
          simp [isRequeue, hfind, hst]
        have hreqC : requeuedHashes existing (f :: fs)
            = f.hash :: requeuedHashes existing fs := by
          simp [requeuedHashes, List.filter_cons, htrue]
        rw [hreqC]
        refine List.map_congr_left (fun r hrmem => ?_)
        simp only [Function.comp_apply]
        by_cases hrh : (r.file_hash == f.hash) = true
        · have hr2 : r.file_hash = f.hash := beq_iff_eq.mp hrh
          rw [if_pos hrh]
          have hnot : (requeueReset r).file_hash
              ∉ requeuedHashes existing fs := by
            rw [requeueReset_file_hash, hr2]
            exact fun hmem => hhead (mem_requeuedHashes hmem)
          rw [if_neg hnot, if_pos (by simp [hr2])]
        · rw [if_neg hrh]
          have hne : r.file_hash ≠ f.hash := by simpa using hrh
          simp [List.mem_cons, hne]
      · simp only [hfind, Bool.false_or, if_neg hst]
        rw [ih existing _ _ _ _ htail hseen2]
        have hfalse : isRequeue existing f = false := by
          simp only [isRequeue, hfind]
          exact Bool.not_eq_true _ ▸ (by simpa using hst)
        have hreq : requeuedHashes existing (f :: fs)
            = requeuedHashes existing fs := by
          simp [requeuedHashes, List.filter_cons, hfalse]
        rw [hreq]

theorem foldr_addCounts (l : List IngestCounts) (c : IngestCounts) :
    l.foldr addCounts c = addCounts (sumCounts l) c := by
  induction l with
  | nil =>
    cases c
    simp [sumCounts, addCounts]
  | cons x xs ih =>
    simp only [List.foldr_cons, ih, sumCounts_cons]
    simp only [addCounts, IngestCounts.mk.injEq]
    omega

theorem sumCounts_append (l1 l2 : List IngestCounts) :
    sumCounts (l1 ++ l2) = addCounts (sumCounts l1) (sumCounts l2) := by
  simp only [sumCounts, List.foldr_append]
  exact foldr_addCounts l1 (l2.foldr addCounts ⟨0, 0, 0⟩)

theorem map_const_replicate {α β : Type} (l : List α) (c : β) (g : α → β)
    (h : ∀ x ∈ l, g x = c) : l.map g = List.replicate l.length c := by
  induction l with
  | nil => rfl
  | cons x xs ih =>
    simp only [List.map_cons, List.length_cons, List.replicate_succ]
    rw [h x (by simp), ih (fun y hy => h y (List.mem_cons_of_mem x hy))]

theorem sumCounts_replicate_create (k : Nat) :
    sumCounts (List.replicate k (⟨1, 1, 0⟩ : IngestCounts)) = ⟨k, k, 0⟩ := by
  induction k with
  | zero => rfl
  | succ k ih =>
    simp only [List.replicate_succ, sumCounts_cons, ih]
    show IngestCounts.mk (1 + k) (1 + k) (0 + 0) = ⟨k + 1, k + 1, 0⟩
    simp [IngestCounts.mk.injEq, Nat.add_comm]

/-- C8: a batch of 10 fresh files, one file whose bytes duplicate an
existing `QUEUED` row, and one file matching an existing `FAILED` row,
ingested with `force_reprocess` off, yields counts
`discovered = 10, queued = 11, skipped = 1`; the `FAILED` row is reset to
`QUEUED` with `error_message` and `retry_count` cleared, and the `QUEUED`
match is skipped. -/
theorem C8_batch_scenario (news10 : List FileData) (fdup ffail : FileData)
    (rq rf : Recording) (n : Nat)
    (hlen : news10.length = 10)
    (hq : rq.status = RecordingStatus.queued)
    (hf : rf.status = RecordingStatus.failed)
    (hdup : fdup.hash = rq.file_hash)
    (hfail : ffail.hash = rf.file_hash)
    (hqf : rq.file_hash ≠ rf.file_hash)
    (hfresh : ∀ f ∈ news10, f.hash ≠ rq.file_hash ∧ f.hash ≠ rf.file_hash)
    (hnodup : ((news10 ++ [fdup, ffail]).map (fun f => f.hash)).Nodup) :
    (ingest_folder false (news10 ++ [fdup, ffail]) [rq, rf] n).2
        = ⟨10, 11, 1⟩ ∧
      requeueReset rf
          ∈ (ingest_folder false (news10 ++ [fdup, ffail]) [rq, rf] n).1 ∧
      (requeueReset rf).status = RecordingStatus.queued ∧
      (requeueReset rf).error_message = none ∧
      (requeueReset rf).retry_count = 0 := by
  have hseen0 : ∀ f ∈ news10 ++ [fdup, ffail], f.hash ∉ ([] : List String) := by
    simp
  have hfindq : ∀ h : String, h ≠ rq.file_hash → h ≠ rf.file_hash →
      [rq, rf].find? (fun r => r.file_hash == h) = none := by
    intro h h1 h2
    have e1 : (rq.file_hash == h) = false := by simp [Ne.symm h1]
    have e2 : (rf.file_hash == h) = false := by simp [Ne.symm h2]
    simp [List.find?, e1, e2]
  have hfind_dup : [rq, rf].find? (fun r => r.file_hash == fdup.hash)
      = some rq := by
    have e1 : (rq.file_hash == fdup.hash) = true := by simp [hdup]
    simp [List.find?, e1]
  have hfind_fail : [rq, rf].find? (fun r => r.file_hash == ffail.hash)
      = some rf := by
    have e1 : (rq.file_hash == ffail.hash) = false := by
      simp [hfail]
      exact hqf
    have e2 : (rf.file_hash == ffail.hash) = true := by simp [hfail]
    simp [List.find?, e1, e2]
  have hclass_new : ∀ f ∈ news10,
      ingest_class [rq, rf] f = ⟨1, 1, 0⟩ := by
    intro f hfm
    simp [ingest_class, hfindq f.hash (hfresh f hfm).1 (hfresh f hfm).2]
  have hclass_dup : ingest_class [rq, rf] fdup = ⟨0, 0, 1⟩ := by
    have : (rq.status == RecordingStatus.failed) = false := by simp [hq]
    simp [ingest_class, hfind_dup, this]
  have hclass_fail : ingest_class [rq, rf] ffail = ⟨0, 1, 0⟩ := by
    have : (rf.status == RecordingStatus.failed) = true := by simp [hf]
    simp [ingest_class, hfind_fail, this]
  refine ⟨?_, ?_, rfl, rfl, rfl⟩
  · simp only [ingest_folder]
    rw [ingestLoop_counts _ _ _ _ _ _ hnodup hseen0]
    rw [List.map_append, sumCounts_append,
      map_const_replicate news10 (⟨1, 1, 0⟩ : IngestCounts) _ hclass_new, hlen,
      sumCounts_replicate_create]
    rw [List.map_cons, List.map_cons, List.map_nil, hclass_dup, hclass_fail]
    rfl
  · simp only [ingest_folder]
    refine List.mem_append_left _ ?_
    rw [ingestLoop_existing _ _ _ _ _ _ hnodup hseen0]
    have hreq_new : ∀ f ∈ news10, isRequeue [rq, rf] f = false := by
      intro f hfm
      simp [isRequeue, hfindq f.hash (hfresh f hfm).1 (hfresh f hfm).2]
    have hreq_dup : isRequeue [rq, rf] fdup = false := by
      have : (rq.status == RecordingStatus.failed) = false := by simp [hq]
      simp [isRequeue, hfind_dup, this]
    have hreq_fail : isRequeue [rq, rf] ffail = true := by
      have : (rf.status == RecordingStatus.failed) = true := by simp [hf]
      simp [isRequeue, hfind_fail, this]
    have hcond : rf.file_hash
        ∈ requeuedHashes [rq, rf] (news10 ++ [fdup, ffail]) := by
      simp only [requeuedHashes]
      refine List.mem_map.mpr ⟨ffail, ?_, hfail⟩
      refine List.mem_filter.mpr ⟨List.mem_append_right _ (by simp), hreq_fail⟩
    exact List.mem_map.mpr ⟨rf, by simp, by rw [if_pos hcond]⟩

theorem C8_batch_scenario_witness :
    (ingest_folder false (c8files ++ [c8dup, c8fail]) [c8rq, c8rf] 100).2
        = ⟨10, 11, 1⟩ ∧
      requeueReset c8rf
        ∈ (ingest_folder false (c8files ++ [c8dup, c8fail]) [c8rq, c8rf] 100).1 := by
  have h := C8_batch_scenario c8files c8dup c8fail c8rq c8rf 100 (by decide)
    (by decide) (by decide) (by decide) (by decide) (by decide)
    (by decide) (by decide)
  exact ⟨h.1, h.2.1⟩

theorem hashes_requeue_map (existing : List Recording) (h0 : String) :
    ((existing.map (fun r =>
        if r.file_hash == h0 then requeueReset r else r)).map
        (fun r => r.file_hash))
      = existing.map (fun r => r.file_hash) := by
  rw [List.map_map]
  refine List.map_congr_left (fun r hr => ?_)
  simp only [Function.comp_apply]
  split <;> rfl

theorem createdRow_file_hash (n : Nat) (f : FileData) :
    (createdRow n f).file_hash = f.hash := rfl

/-- The counters of the ingest loop depend only on the sequence of
content hashes: candidate lists equal hash-for-hash (names, paths, sizes
free) produce the same counters from the same table. -/
theorem ingestLoop_counts_hash_only (force : Bool) (fs : List FileData) :
    ∀ (fs2 : List FileData) (existing news news2 : List Recording)
      (counts : IngestCounts) (seen : List String) (n n2 : Nat),
      fs.map (fun f => f.hash) = fs2.map (fun f => f.hash) →
      (ingestLoop force fs existing news counts seen n).2.2
        = (ingestLoop force fs2 existing news2 counts seen n2).2.2 := by
  induction fs with
  | nil =>
    intro fs2 existing news news2 counts seen n n2 hh
    cases fs2 with
    | nil => rfl
    | cons g gs => simp at hh
  | cons f fs ih =>
    intro fs2 existing news news2 counts seen n n2 hh
    cases fs2 with
    | nil => simp at hh
    | cons g gs =>
      simp only [List.map_cons, List.cons.injEq] at hh
      obtain ⟨hfg, htl⟩ := hh
      simp only [ingestLoop]
      rw [hfg]
      by_cases hmem : g.hash ∈ seen
      · rw [if_pos hmem, if_pos hmem]
        exact ih gs existing _ _ _ _ _ _ htl
      · rw [if_neg hmem, if_neg hmem]
        cases hfind : existing.find? (fun r => r.file_hash == g.hash) with
        | none =>
          simp only [hfind]
          exact ih gs existing _ _ _ _ _ _ htl
        | some ex =>
          simp only [hfind]
          by_cases hst : (force || ex.status == RecordingStatus.failed) = true
          · rw [if_pos hst, if_pos hst]
            exact ih gs _ _ _ _ _ _ _ htl
          · rw [if_neg hst, if_neg hst]
            exact ih gs existing _ _ _ _ _ _ htl

/-- Invariant of the watcher batch loop: the accumulated creations keep
pairwise-distinct hashes, and every row beyond the initial accumulator
has a hash outside the initial known-hash set. -/
theorem watcherLoop_inv (fs : List FileData) (hashes names : List String)
    (acc : List Recording) (n : Nat)
    (hacc : (acc.map (fun r => r.file_hash)).Nodup)
    (hsub : ∀ r ∈ acc, r.file_hash ∈ hashes) :
    ((watcherLoop fs hashes names acc n).1.map (fun r => r.file_hash)).Nodup ∧
      ∀ r ∈ (watcherLoop fs hashes names acc n).1,
        r ∈ acc ∨ r.file_hash ∉ hashes := by
  induction fs generalizing hashes names acc n with
  | nil => exact ⟨hacc, fun r hr => Or.inl hr⟩
  | cons f fs ih =>
    simp only [watcherLoop]
    by_cases h1 : f.hash ∈ hashes
    · rw [if_pos h1]
      exact ih hashes names acc n hacc hsub
    · rw [if_neg h1]
      by_cases h2 : f.name ∈ names
      · rw [if_pos h2]
        exact ih hashes names acc n hacc hsub
      · rw [if_neg h2]
        have hacc2 : (((acc ++ [createdRow n f]).map
            (fun r => r.file_hash))).Nodup := by
          rw [List.map_append]
          refine List.Nodup.append hacc (by simp) ?_
          intro a ha hb
          simp only [List.map_cons, List.map_nil, List.mem_singleton,
            createdRow_file_hash] at hb
          obtain ⟨r0, hr0, hr0h⟩ := List.mem_map.mp ha
          exact h1 (hb ▸ hr0h ▸ hsub r0 hr0)
        have hsub2 : ∀ r ∈ acc ++ [createdRow n f],
            r.file_hash ∈ f.hash :: hashes := by
          intro r hr
          rcases List.mem_append.mp hr with h | h
          · exact List.mem_cons_of_mem _ (hsub r h)
          · simp only [List.mem_singleton] at h
            subst h
            exact List.mem_cons_self _ _
        obtain ⟨hnodup2, hmem2⟩ := ih (f.hash :: hashes) (f.name :: names)
          _ (n + 1) hacc2 hsub2
        refine ⟨hnodup2, fun r hr => ?_⟩
        rcases hmem2 r hr with hin | hout
        · rcases List.mem_append.mp hin with ha | hc
          · exact Or.inl ha
          · simp only [List.mem_singleton] at hc
            subst hc
            exact Or.inr h1
        · exact Or.inr fun hmem => hout (List.mem_cons_of_mem _ hmem)

/-- Invariant of the ingest loop creations: batch creations keep
pairwise-distinct hashes and never duplicate a hash already present in
the pre-existing table. -/
theorem ingestLoop_news_inv (force : Bool) (fs : List FileData) :
    ∀ (existing news : List Recording) (counts : IngestCounts)
      (seen : List String) (n : Nat),
      (news.map (fun r => r.file_hash)).Nodup →
      (∀ r ∈ news, r.file_hash ∈ seen) →
      (((ingestLoop force fs existing news counts seen n).2.1).map
          (fun r => r.file_hash)).Nodup ∧
        ∀ r ∈ (ingestLoop force fs existing news counts seen n).2.1,
          r ∈ news ∨ r.file_hash ∉ existing.map (fun r2 => r2.file_hash) := by
  induction fs with
  | nil =>
    intro existing news counts seen n hn hsub
    exact ⟨hn, fun r hr => Or.inl hr⟩
  | cons f fs ih =>
    intro existing news counts seen n hn hsub
    simp only [ingestLoop]
    by_cases hf : f.hash ∈ seen
    · rw [if_pos hf]
      exact ih existing news _ _ _ hn hsub
    · rw [if_neg hf]
      cases hfind : existing.find? (fun r => r.file_hash == f.hash) with
      | some ex =>
        simp only [hfind]
        by_cases hst : (force || ex.status == RecordingStatus.failed) = true
        · rw [if_pos hst]
          have hsub2 : ∀ r ∈ news, r.file_hash ∈ f.hash :: seen :=
            fun r hr => List.mem_cons_of_mem _ (hsub r hr)
          obtain ⟨ha, hb⟩ := ih (existing.map (fun r =>
            if r.file_hash == f.hash then requeueReset r else r)) news _ _ _
            hn hsub2
          refine ⟨ha, fun r hr => ?_⟩
          rcases hb r hr with h | h
          · exact Or.inl h
          · refine Or.inr fun hmem => h ?_
            rw [hashes_requeue_map existing f.hash]
            exact hmem
        · rw [if_neg hst]
          exact ih existing news _ _ _ hn
            (fun r hr => List.mem_cons_of_mem _ (hsub r hr))
      | none =>
        simp only [hfind]
        have hn2 : (((news ++ [createdRow n f]).map
            (fun r => r.file_hash))).Nodup := by
          rw [List.map_append]
          refine List.Nodup.append hn (by simp) ?_
          intro a ha hb
          simp only [List.map_cons, List.map_nil, List.mem_singleton,
            createdRow_file_hash] at hb
          obtain ⟨r0, hr0, hr0h⟩ := List.mem_map.mp ha
          exact hf (hb ▸ hr0h ▸ hsub r0 hr0)
        have hsub2 : ∀ r ∈ news ++ [createdRow n f],
            r.file_hash ∈ f.hash :: seen := by
          intro r hr
          rcases List.mem_append.mp hr with h | h
          · exact List.mem_cons_of_mem _ (hsub r h)
          · simp only [List.mem_singleton] at h
            subst h
            exact List.mem_cons_self _ _
        obtain ⟨ha, hb⟩ := ih existing _ _ _ _ hn2 hsub2
        refine ⟨ha, fun r hr => ?_⟩
        rcases hb r hr with h | h
        · rcases List.mem_append.mp h with h2 | h2
          · exact Or.inl h2
          · simp only [List.mem_singleton] at h2
            subst h2
            refine Or.inr fun hmem => ?_
            obtain ⟨r0, hr0, hr0h⟩ := List.mem_map.mp hmem
            have hnone := List.find?_eq_none.mp hfind r0 hr0
            exact hnone (by simp [hr0h, createdRow_file_hash])
        · exact Or.inr h

/-- C9 counterexample: the watcher decision is not a function of the
bytes alone — a candidate with fresh bytes is skipped when its name
matches an existing row, while identical bytes under another name are
queued. -/
theorem C9_counterexample :
    c9newA.hash = c9newB.hash ∧
      (watcher_process_batch c9db [c9newA] 50).2 = 0 ∧
      (watcher_process_batch c9db [c9newB] 50).2 = 1 := by
  decide

/-- C9 amended: the Ingestor decision depends on content hashes only
(candidate lists equal hash-for-hash give equal counters), and both
reconciliation paths create at most one row per distinct hash and never a
row whose hash already exists — but the Watcher additionally skips any
candidate whose file NAME matches an existing row, so its
create-versus-skip decision is not invariant under renaming. -/
theorem C9_dedup_content (force : Bool) (fs fs2 files : List FileData)
    (db : List Recording) (n n2 m : Nat) :
    (fs.map (fun f => f.hash) = fs2.map (fun f => f.hash) →
      (ingest_folder force fs db n).2 = (ingest_folder force fs2 db n2).2) ∧
    (((watcher_process_batch db files m).1.map
        (fun r => r.file_hash)).Nodup ∧
      ∀ r ∈ (watcher_process_batch db files m).1,
        r.file_hash ∉ db.map (fun r2 => r2.file_hash)) ∧
    ((((ingestLoop force files db [] ⟨0, 0, 0⟩ [] m).2.1).map
        (fun r => r.file_hash)).Nodup ∧
      ∀ r ∈ (ingestLoop force files db [] ⟨0, 0, 0⟩ [] m).2.1,
        r.file_hash ∉ db.map (fun r2 => r2.file_hash)) := by
  refine ⟨?_, ?_, ?_⟩
  · intro hh
    simp only [ingest_folder]
    exact ingestLoop_counts_hash_only force fs fs2 db [] [] ⟨0, 0, 0⟩ [] n n2 hh
  · obtain ⟨ha, hb⟩ := watcherLoop_inv files (db.map (fun r => r.file_hash))
      (db.map (fun r => r.file_name)) [] m (by simp) (by simp)
    refine ⟨ha, fun r hr => ?_⟩
    rcases hb r hr with h | h
    · exact absurd h (List.not_mem_nil r)
    · exact h
  · obtain ⟨ha, hb⟩ := ingestLoop_news_inv force files db [] ⟨0, 0, 0⟩ [] m
      (by simp) (by simp)
    refine ⟨ha, fun r hr => ?_⟩
    rcases hb r hr with h | h
    · exact absurd h (List.not_mem_nil r)
    · exact h

theorem C9_dedup_content_witness :
    (ingest_folder false [c9newA] c9db 50).2
      = (ingest_folder false [c9newB] c9db 50).2 := by
  exact (C9_dedup_content false [c9newA] [c9newB] [] c9db 50 50 0).1 (by decide)

end Whisper
